import Mathlib

/-!
Verification of the Todo store of this repository (zod schemas, tRPC
handlers, and their tests) against its design document.

Shallow embedding conventions:
* timestamps are naturals (milliseconds since the epoch);
* the SQL null of the description column is Option.none;
* the JavaScript three-state of an update-patch field
  (absent / explicit null / value) is the inductive Field3;
* the backing table is a list of rows in insertion order together with
  the auto-increment counter, and now() is passed in explicitly.
-/

/-- Three-state field of a patch: absent from the object, present with an
explicit null, or present with a value.  Mirrors the zod shape
string().nullable().optional(). -/
inductive Field3 (α : Type) where
  | absent : Field3 α
  | null : Field3 α
  | value : α → Field3 α
deriving Repr, DecidableEq

/-- The Todo record, from todoSchema in the shared schema file: id, title,
nullable description, completed flag and the two timestamps. -/
structure Todo where
  id : Nat
  title : String
  description : Option String
  completed : Bool
  created_at : Nat
  updated_at : Nat
deriving Repr, DecidableEq

/-- Input of createTodo, from createTodoInputSchema: a title and an
optional, nullable description. -/
structure CreateTodoInput where
  title : String
  description : Field3 String
deriving Repr, DecidableEq

/-- Input of updateTodo, from updateTodoInputSchema: the id plus three
independently optional fields; only description is additionally nullable. -/
structure UpdateTodoInput where
  id : Nat
  title : Option String
  description : Field3 String
  completed : Option Bool
deriving Repr, DecidableEq

/-- Input of deleteTodo, from deleteTodoInputSchema. -/
structure DeleteTodoInput where
  id : Nat
deriving Repr, DecidableEq

/-- Input of getTodo, from getTodoInputSchema. -/
structure GetTodoInput where
  id : Nat
deriving Repr, DecidableEq

/-- Validation of createTodoInputSchema: zod min(1) on the title, i.e. the
length of the raw string must be at least one.  No trimming happens. -/
def createTodoInputValid (i : CreateTodoInput) : Bool :=
  1 ≤ i.title.length

/-- Validation of updateTodoInputSchema: the title is optional, but when
present zod min(1) applies to the raw string; description and completed
carry no constraint. -/
def updateTodoInputValid (i : UpdateTodoInput) : Bool :=
  match i.title with
  | none => true
  | some t => 1 ≤ t.length

/-- The backing store: the todos table in insertion order, the
auto-increment id counter, and the clock value of the latest write. -/
structure StoreState where
  todos : List Todo
  nextId : Nat
  clock : Nat
deriving Repr, DecidableEq

/-- The getTodo handler, from src/server/src/handlers/get_todo.ts: select
the rows whose id equals the input id and return the first one when the
result set is nonempty, null otherwise. -/
def getTodo (input : GetTodoInput) (s : StoreState) : Option Todo :=
  (s.todos.filter (fun t => t.id == input.id)).head?

/-- The updateTodo handler exactly as implemented in the repository: a
placeholder that returns null for every input and never touches the
backing store. -/
def updateTodo (_input : UpdateTodoInput) (s : StoreState) :
    Option Todo × StoreState :=
  (none, s)

/-- Modelled from the spec: the createTodo handler file is absent from the
sources, only its tests exist.  Per the design document, create assigns a
new unique id, sets completed to false, sets both timestamps to now, and
persists an omitted, explicitly-null or empty description as null, never
as an empty string. -/
def createTodo (now : Nat) (input : CreateTodoInput) (s : StoreState) :
    Todo × StoreState :=
  let desc : Option String :=
    match input.description with
    | Field3.value d => if d = "" then none else some d
    | _ => none
  let t : Todo :=
    { id := s.nextId, title := input.title, description := desc,
      completed := false, created_at := now, updated_at := now }
  (t, { todos := s.todos ++ [t], nextId := s.nextId + 1, clock := now })

/-- Application of an update patch to one row, following the design
document: a field absent from the patch leaves the stored value untouched,
an explicit null clears the description, a present value replaces the
stored one, and updated_at is always set to now. -/
def applyPatch (now : Nat) (input : UpdateTodoInput) (t : Todo) : Todo :=
  { t with
    title := input.title.getD t.title
    description :=
      match input.description with
      | Field3.absent => t.description
      | Field3.null => none
      | Field3.value d => some d
    completed := input.completed.getD t.completed
    updated_at := now }

/-- Modelled from the spec: the intended updateTodo operation (the handler
in the sources is an unimplemented placeholder).  It looks the row up by
id, returns null when no row matches, and otherwise applies the whole
patch to that row, advancing updated_at to now. -/
def updateTodoSpec (now : Nat) (input : UpdateTodoInput) (s : StoreState) :
    Option Todo × StoreState :=
  match (s.todos.filter (fun t => t.id == input.id)).head? with
  | none => (none, s)
  | some t =>
      let t2 := applyPatch now input t
      (some t2,
        { s with
          todos := s.todos.map (fun u => if u.id == input.id then t2 else u)
          clock := now })

/-- Modelled from the spec: the deleteTodo handler file is absent from the
sources, only its tests exist.  Per the design document, delete removes
the rows whose id matches and reports whether any row was removed. -/
def deleteTodo (input : DeleteTodoInput) (s : StoreState) :
    Bool × StoreState :=
  let remaining := s.todos.filter (fun t => !(t.id == input.id))
  (decide (remaining.length < s.todos.length), { s with todos := remaining })

/-- Ordering of the listing: a row comes no later than another when its
created_at is larger, or the timestamps tie and its id is at least as
large — newest first, ties broken by descending id. -/
def todoBefore (a b : Todo) : Prop :=
  b.created_at < a.created_at ∨ (b.created_at = a.created_at ∧ b.id ≤ a.id)

instance : DecidableRel todoBefore := fun a b =>
  inferInstanceAs (Decidable (b.created_at < a.created_at ∨
    (b.created_at = a.created_at ∧ b.id ≤ a.id)))

instance : IsTotal Todo todoBefore :=
  ⟨fun a b => by unfold todoBefore; omega⟩

instance : IsTrans Todo todoBefore :=
  ⟨fun a b c hab hbc => by unfold todoBefore at hab hbc ⊢; omega⟩

/-- Modelled from the spec: the getTodos handler file is absent from the
sources, only its tests exist.  Per the design document, list returns all
rows sorted newest-created first with ties broken by descending id. -/
def getTodos (s : StoreState) : List Todo :=
  List.insertionSort todoBefore s.todos

/-- The tRPC entry of create: zod validation first, then the handler; a
rejected input leaves the store untouched. -/
def createTodoRPC (now : Nat) (input : CreateTodoInput) (s : StoreState) :
    Except String Todo × StoreState :=
  if createTodoInputValid input then
    let r := createTodo now input s
    (Except.ok r.1, r.2)
  else (Except.error "Title is required", s)

/-- The tRPC entry of update: zod validation first, then the intended
handler; a rejected input leaves the store untouched. -/
def updateTodoRPC (now : Nat) (input : UpdateTodoInput) (s : StoreState) :
    Except String (Option Todo) × StoreState :=
  if updateTodoInputValid input then
    let r := updateTodoSpec now input s
    (Except.ok r.1, r.2)
  else (Except.error "Title is required", s)

/-- Timestamp invariant of the store: every row satisfies
created_at ≤ updated_at, and no row was written after the clock. -/
def TimestampInv (s : StoreState) : Prop :=
  ∀ t ∈ s.todos, t.created_at ≤ t.updated_at ∧ t.updated_at ≤ s.clock

/-- A concrete stored row used to evaluate the handlers. -/
def sampleTodo : Todo :=
  { id := 1, title := "Original Title", description := none,
    completed := false, created_at := 5, updated_at := 5 }

/-- A concrete store holding exactly the sample row. -/
def sampleState : StoreState :=
  { todos := [sampleTodo], nextId := 2, clock := 5 }

/-- The empty store. -/
def emptyState : StoreState :=
  { todos := [], nextId := 1, clock := 0 }

/-- Helper: a string has length zero exactly when it is the empty string. -/
theorem length_zero_iff_empty (s : String) : s.length = 0 ↔ s = "" := by
  cases s with
  | mk data =>
    constructor
    · intro h
      have hd : data = [] := by simpa [String.length] using h
      subst hd
      rfl
    · intro h
      rw [h]
      rfl

/-- C10: the updateTodo handler as implemented returns the not-found value
for every input, and performs no read or write: the store state it returns
is exactly the one it was given. -/
theorem updateTodo_stub_always_null (input : UpdateTodoInput) (s : StoreState) :
    updateTodo input s = (none, s) := rfl

/-- C1 failing input: the store holds the row with id 1 and getTodo finds
it, the patch carries a valid new title, yet the implemented updateTodo
returns the not-found value and leaves the store unchanged — so the
not-found signal is returned although a record with the id exists,
contradicting the claim, the tests of the handler and its own comment. -/
theorem updateTodo_null_despite_existing_record :
    getTodo { id := 1 } sampleState = some sampleTodo ∧
    updateTodoInputValid
      { id := 1, title := some "Updated Title", description := Field3.absent,
        completed := none } = true ∧
    updateTodo
      { id := 1, title := some "Updated Title", description := Field3.absent,
        completed := none } sampleState = (none, sampleState) := by
  refine ⟨rfl, rfl, rfl⟩

/-- C3 failing input: updating the stored row with an id-only patch, the
scenario of the test named should always update timestamp even with no
other changes. The implemented handler returns null and the stored
updated_at remains 5: updated_at is never advanced, and no update ever
succeeds, contrary to the claim. -/
theorem updateTodo_no_timestamp_bump :
    (updateTodo { id := 1, title := none, description := Field3.absent,
                  completed := none } sampleState).1 = none ∧
    (updateTodo { id := 1, title := none, description := Field3.absent,
                  completed := none } sampleState).2.todos.map
      Todo.updated_at = [5] := by
  refine ⟨rfl, rfl⟩

/-- C2 counterexample: the three-space title is nonempty and consists only
of whitespace characters — trimming it yields the empty string — yet both
the create validation and the update validation accept it, because the zod
schemas check the length of the raw string without trimming. -/
theorem whitespace_title_passes_validation :
    "   ".length = 3 ∧
    "   ".data.all (fun c => c == ' ') = true ∧
    createTodoInputValid { title := "   ", description := Field3.absent } = true ∧
    updateTodoInputValid
      { id := 1, title := some "   ", description := Field3.absent,
        completed := none } = true := by
  refine ⟨rfl, by decide, rfl, rfl⟩

/-- C2 amended: create validation rejects exactly the empty title and
update validation rejects exactly a patch whose present title is the empty
string; any title of positive length, whitespace-only included, is
accepted, and an accepted title is stored verbatim, never coerced. -/
theorem validation_rejects_exactly_empty (ci : CreateTodoInput) (ui : UpdateTodoInput) :
    (createTodoInputValid ci = false ↔ ci.title = "") ∧
    (updateTodoInputValid ui = false ↔ ui.title = some "") ∧
    (∀ now s, (createTodo now ci s).1.title = ci.title) := by
  refine ⟨?_, ?_, fun now s => rfl⟩
  · simp only [createTodoInputValid, decide_eq_false_iff_not, not_le, Nat.lt_one_iff]
    exact length_zero_iff_empty ci.title
  · cases hu : ui.title with
    | none => simp [updateTodoInputValid, hu]
    | some t =>
      simp only [updateTodoInputValid, hu, decide_eq_false_iff_not, not_le,
        Nat.lt_one_iff, Option.some.injEq]
      exact length_zero_iff_empty t

/-- C4: getTodos returns a permutation of the stored rows — every stored
Todo and nothing else — sorted newest-created first with ties broken by
descending id, and the empty store yields the empty list, not an error. -/
theorem getTodos_ordering (s : StoreState) :
    (getTodos s).Perm s.todos ∧
    List.Sorted todoBefore (getTodos s) ∧
    (s.todos = [] → getTodos s = []) := by
  refine ⟨List.perm_insertionSort todoBefore s.todos,
    List.sorted_insertionSort todoBefore s.todos, ?_⟩
  intro h
  simp [getTodos, h]

/-- C4 witness: the listing theorem evaluated at the empty store. -/
theorem getTodos_ordering_witness :
    (getTodos emptyState).Perm emptyState.todos ∧
    List.Sorted todoBefore (getTodos emptyState) ∧
    (emptyState.todos = [] → getTodos emptyState = []) :=
  getTodos_ordering emptyState

/-- Helper: in a table whose rows carry pairwise distinct ids, filtering
on the id of a member row yields exactly that row. -/
theorem filter_id_eq_singleton {l : List Todo} {i : Nat} {t : Todo}
    (h : (l.map Todo.id).Nodup) (ht : t ∈ l) (hid : t.id = i) :
    l.filter (fun u => u.id == i) = [t] := by
  induction l with
  | nil => cases ht
  | cons u rest ih =>
    rw [List.map_cons, List.nodup_cons] at h
    obtain ⟨hu, hrest⟩ := h
    rcases List.mem_cons.mp ht with hcase | hcase
    · subst hcase
      rw [List.filter_cons_of_pos (by simp [hid])]
      have hnil : rest.filter (fun u => u.id == i) = [] := by
        rw [List.filter_eq_nil_iff]
        intro a ha hai
        apply hu
        have hai2 : a.id = i := by simpa using hai
        have : a.id ∈ rest.map Todo.id := List.mem_map_of_mem Todo.id ha
        rw [hai2, ← hid] at this
        exact this
      rw [hnil]
    · have hne : (u.id == i) = false := by
        simp only [beq_eq_false_iff_ne, ne_eq]
        intro he
        apply hu
        have hmm : t.id ∈ rest.map Todo.id := List.mem_map_of_mem Todo.id hcase
        rw [hid, ← he] at hmm
        exact hmm
      have hstep : List.filter (fun u => u.id == i) (u :: rest)
          = List.filter (fun u => u.id == i) rest := by
        simp [List.filter_cons, hne]
      rw [hstep]
      exact ih hrest hcase

/-- Helper: the rows dropped and the rows kept by the id filter partition
the table. -/
theorem length_filter_id_partition (l : List Todo) (i : Nat) :
    (l.filter (fun u => !(u.id == i))).length
      + (l.filter (fun u => u.id == i)).length = l.length := by
  induction l with
  | nil => rfl
  | cons u rest ih =>
    by_cases hc : u.id = i
    · rw [List.filter_cons_of_neg (by simp [hc]),
        List.filter_cons_of_pos (by simp [hc])]
      simp only [List.length_cons]
      omega
    · rw [List.filter_cons_of_pos (by simp [hc]),
        List.filter_cons_of_neg (by simp [hc])]
      simp only [List.length_cons]
      omega

/-- C7: in a store whose rows carry pairwise distinct ids, getTodo returns
some t exactly when t is the stored row with the requested id, and returns
the explicit not-found value none exactly when no stored row has the id —
the not-found case is a normal result, not an error. -/
theorem getTodo_found_or_null (i : Nat) (s : StoreState)
    (h : (s.todos.map Todo.id).Nodup) :
    (∀ t : Todo, getTodo { id := i } s = some t ↔ t ∈ s.todos ∧ t.id = i) ∧
    (getTodo { id := i } s = none ↔ ∀ t ∈ s.todos, t.id ≠ i) := by
  constructor
  · intro t
    constructor
    · intro hsome
      unfold getTodo at hsome
      have hmem : t ∈ s.todos.filter (fun u => u.id == i) := by
        obtain ⟨ys, hys⟩ := List.head?_eq_some_iff.mp hsome
        rw [hys]
        exact List.mem_cons_self _ _
      rw [List.mem_filter] at hmem
      exact ⟨hmem.1, by simpa using hmem.2⟩
    · intro hmem
      unfold getTodo
      rw [filter_id_eq_singleton h hmem.1 hmem.2]
      rfl
  · unfold getTodo
    rw [List.head?_eq_none_iff, List.filter_eq_nil_iff]
    constructor
    · intro hall t ht hti
      exact hall t ht (by simp [hti])
    · intro hall t ht
      simp [hall t ht]

/-- C7 witness: the lookup theorem evaluated at the sample store and id 1. -/
theorem getTodo_found_or_null_witness :
    (∀ t : Todo, getTodo { id := 1 } sampleState = some t ↔
      t ∈ sampleState.todos ∧ t.id = 1) ∧
    (getTodo { id := 1 } sampleState = none ↔
      ∀ t ∈ sampleState.todos, t.id ≠ 1) :=
  getTodo_found_or_null 1 sampleState (by decide)

/-- C5: createTodo returns a row with completed false and both timestamps
equal to the creation instant, stores the description as none whenever the
input description is omitted, explicitly null or the empty string — the
stored description is never the empty string — assigns an id distinct from
every stored id whenever the counter dominates the store, and appends
exactly that row to the table. -/
theorem createTodo_defaults (now : Nat) (input : CreateTodoInput)
    (s : StoreState) (hfresh : ∀ t ∈ s.todos, t.id < s.nextId) :
    (createTodo now input s).1.completed = false ∧
    (createTodo now input s).1.created_at = now ∧
    (createTodo now input s).1.updated_at = now ∧
    ((input.description = Field3.absent ∨ input.description = Field3.null ∨
        input.description = Field3.value "") →
      (createTodo now input s).1.description = none) ∧
    (createTodo now input s).1.description ≠ some "" ∧
    (∀ t ∈ s.todos, t.id ≠ (createTodo now input s).1.id) ∧
    (createTodo now input s).2.todos
      = s.todos ++ [(createTodo now input s).1] := by
  refine ⟨rfl, rfl, rfl, ?_, ?_, ?_, rfl⟩
  · intro hd
    rcases hd with hd | hd | hd <;> simp [createTodo, hd]
  · cases hdesc : input.description with
    | absent => simp [createTodo, hdesc]
    | null => simp [createTodo, hdesc]
    | value d =>
      by_cases hd : d = ""
      · simp [createTodo, hdesc, hd]
      · simp [createTodo, hdesc, hd]
  · intro t ht
    exact Nat.ne_of_lt (hfresh t ht)

/-- Sample create input used to evaluate the creation theorem. -/
def buyMilkInput : CreateTodoInput :=
  { title := "Buy milk", description := Field3.absent }

/-- C5 witness: the creation theorem evaluated at time 7 on the empty
store. -/
theorem createTodo_defaults_witness :
    (createTodo 7 buyMilkInput emptyState).1.completed = false ∧
    (createTodo 7 buyMilkInput emptyState).1.created_at = 7 ∧
    (createTodo 7 buyMilkInput emptyState).1.updated_at = 7 ∧
    ((buyMilkInput.description = Field3.absent ∨
        buyMilkInput.description = Field3.null ∨
        buyMilkInput.description = Field3.value "") →
      (createTodo 7 buyMilkInput emptyState).1.description = none) ∧
    (createTodo 7 buyMilkInput emptyState).1.description ≠ some "" ∧
    (∀ t ∈ emptyState.todos,
      t.id ≠ (createTodo 7 buyMilkInput emptyState).1.id) ∧
    (createTodo 7 buyMilkInput emptyState).2.todos
      = emptyState.todos ++ [(createTodo 7 buyMilkInput emptyState).1] :=
  createTodo_defaults 7 buyMilkInput emptyState (by decide)

/-- C6: deleteTodo returns true exactly when a stored row carries the
requested id, it leaves exactly the non-matching rows (so in a store with
pairwise distinct ids a successful delete shrinks the table by one row),
a missing id yields the normal result false, and a second delete of the
same id always returns false. -/
theorem deleteTodo_idempotent_report (i : Nat) (s : StoreState)
    (h : (s.todos.map Todo.id).Nodup) :
    ((deleteTodo { id := i } s).1 = true ↔ ∃ t ∈ s.todos, t.id = i) ∧
    (deleteTodo { id := i } s).2.todos
      = s.todos.filter (fun t => !(t.id == i)) ∧
    ((deleteTodo { id := i } s).1 = true →
      (deleteTodo { id := i } s).2.todos.length + 1 = s.todos.length) ∧
    (deleteTodo { id := i } (deleteTodo { id := i } s).2).1 = false := by
  have hle := List.length_filter_le (fun t => !(t.id == i)) s.todos
  have hmain : (deleteTodo { id := i } s).1 = true ↔ ∃ t ∈ s.todos, t.id = i := by
    show decide ((s.todos.filter (fun t => !(t.id == i))).length
      < s.todos.length) = true ↔ _
    rw [decide_eq_true_eq]
    constructor
    · intro hlt
      have hne : (s.todos.filter (fun t => !(t.id == i))).length
          ≠ s.todos.length := Nat.ne_of_lt hlt
      rw [ne_eq, List.filter_length_eq_length] at hne
      push_neg at hne
      obtain ⟨t, ht, hti⟩ := hne
      refine ⟨t, ht, ?_⟩
      simpa using hti
    · intro hex
      obtain ⟨t, ht, hti⟩ := hex
      have hne : (s.todos.filter (fun t => !(t.id == i))).length
          ≠ s.todos.length := by
        rw [ne_eq, List.filter_length_eq_length]
        push_neg
        exact ⟨t, ht, by simp [hti]⟩
      omega
  refine ⟨hmain, rfl, ?_, ?_⟩
  · intro htrue
    obtain ⟨t, ht, hti⟩ := hmain.mp htrue
    have hsing := filter_id_eq_singleton h ht hti
    have hpart := length_filter_id_partition s.todos i
    show (s.todos.filter (fun t => !(t.id == i))).length + 1 = s.todos.length
    rw [hsing] at hpart
    simpa using hpart
  · have hrem : ((deleteTodo { id := i } s).2.todos).filter
        (fun t => !(t.id == i)) = (deleteTodo { id := i } s).2.todos := by
      rw [List.filter_eq_self]
      intro a ha
      exact (List.mem_filter.mp ha).2
    show decide ((((deleteTodo { id := i } s).2.todos).filter
        (fun t => !(t.id == i))).length
      < ((deleteTodo { id := i } s).2.todos).length) = false
    rw [hrem, decide_eq_false_iff_not]
    exact Nat.lt_irrefl _

/-- C6 witness: the deletion theorem evaluated at the sample store and
id 1. -/
theorem deleteTodo_idempotent_report_witness :
    ((deleteTodo { id := 1 } sampleState).1 = true ↔
      ∃ t ∈ sampleState.todos, t.id = 1) ∧
    (deleteTodo { id := 1 } sampleState).2.todos
      = sampleState.todos.filter (fun t => !(t.id == 1)) ∧
    ((deleteTodo { id := 1 } sampleState).1 = true →
      (deleteTodo { id := 1 } sampleState).2.todos.length + 1
        = sampleState.todos.length) ∧
    (deleteTodo { id := 1 } (deleteTodo { id := 1 } sampleState).2).1 = false :=
  deleteTodo_idempotent_report 1 sampleState (by decide)

/-- C8: the invariant created_at ≤ updated_at — strengthened with the
bound updated_at ≤ clock that the induction needs — holds of every stored
row and is preserved by create, by the intended update and by delete,
whenever the operation runs at a time no earlier than the clock of the
store. -/
theorem timestampInv_preserved (now : Nat) (s : StoreState)
    (hc : s.clock ≤ now) (hinv : TimestampInv s) :
    (∀ ci : CreateTodoInput, TimestampInv (createTodo now ci s).2) ∧
    (∀ ui : UpdateTodoInput, TimestampInv (updateTodoSpec now ui s).2) ∧
    (∀ di : DeleteTodoInput, TimestampInv (deleteTodo di s).2) := by
  refine ⟨?_, ?_, ?_⟩
  · intro ci t ht
    have hsplit : t ∈ s.todos ∨ t = (createTodo now ci s).1 := by
      have hts : (createTodo now ci s).2.todos
          = s.todos ++ [(createTodo now ci s).1] := rfl
      rw [hts] at ht
      rcases List.mem_append.mp ht with hmem | hmem
      · exact Or.inl hmem
      · exact Or.inr (List.mem_singleton.mp hmem)
    rcases hsplit with hmem | heq
    · obtain ⟨h1, h2⟩ := hinv t hmem
      exact ⟨h1, le_trans h2 hc⟩
    · subst heq
      exact ⟨le_refl now, le_refl now⟩
  · intro ui
    cases hcase : (s.todos.filter (fun u => u.id == ui.id)).head? with
    | none =>
      have hstate : (updateTodoSpec now ui s).2 = s := by
        unfold updateTodoSpec
        rw [hcase]
      rw [hstate]
      exact hinv
    | some t0 =>
      have ht0 : t0 ∈ s.todos := by
        obtain ⟨ys, hys⟩ := List.head?_eq_some_iff.mp hcase
        have hmem : t0 ∈ s.todos.filter (fun u => u.id == ui.id) := by
          rw [hys]
          exact List.mem_cons_self _ _
        exact (List.mem_filter.mp hmem).1
      obtain ⟨g1, g2⟩ := hinv t0 ht0
      have hstate : (updateTodoSpec now ui s).2 =
          { s with
            todos := s.todos.map
              (fun u => if u.id == ui.id then applyPatch now ui t0 else u)
            clock := now } := by
        unfold updateTodoSpec
        rw [hcase]
      rw [hstate]
      intro t ht
      simp only [List.mem_map] at ht
      obtain ⟨u, hu, hut⟩ := ht
      obtain ⟨h1, h2⟩ := hinv u hu
      by_cases hcond : (u.id == ui.id) = true
      · rw [if_pos hcond] at hut
        subst hut
        refine ⟨?_, le_refl now⟩
        show t0.created_at ≤ now
        omega
      · rw [if_neg hcond] at hut
        subst hut
        exact ⟨h1, le_trans h2 hc⟩
  · intro di t ht
    have hmem : t ∈ s.todos := by
      have hts : (deleteTodo di s).2.todos
          = s.todos.filter (fun u => !(u.id == di.id)) := rfl
      rw [hts] at ht
      exact (List.mem_filter.mp ht).1
    obtain ⟨h1, h2⟩ := hinv t hmem
    exact ⟨h1, h2⟩

/-- C8 witness: the preservation theorem evaluated at time 7 on the
sample store, whose clock is 5. -/
theorem timestampInv_preserved_witness :
    (∀ ci : CreateTodoInput, TimestampInv (createTodo 7 ci sampleState).2) ∧
    (∀ ui : UpdateTodoInput,
      TimestampInv (updateTodoSpec 7 ui sampleState).2) ∧
    (∀ di : DeleteTodoInput, TimestampInv (deleteTodo di sampleState).2) :=
  timestampInv_preserved 7 sampleState (by decide)
    (by intro t ht; simp only [sampleState, List.mem_singleton] at ht;
        subst ht; exact ⟨by decide, by decide⟩)

/-- C9: a rejected request mutates no stored state — when validation
fails, create and update return the store exactly as given — and the
intended update is atomic: it either leaves the store untouched or applies
the whole patch to the stored row carrying the requested id. -/
theorem rejected_request_no_mutation (now : Nat) (s : StoreState) :
    (∀ ci : CreateTodoInput, createTodoInputValid ci = false →
      (createTodoRPC now ci s).2 = s) ∧
    (∀ ui : UpdateTodoInput, updateTodoInputValid ui = false →
      (updateTodoRPC now ui s).2 = s) ∧
    (∀ ui : UpdateTodoInput,
      (updateTodoSpec now ui s).2 = s ∨
      ∃ t ∈ s.todos, t.id = ui.id ∧
        (updateTodoSpec now ui s).1 = some (applyPatch now ui t) ∧
        (updateTodoSpec now ui s).2.todos =
          s.todos.map (fun u => if u.id == ui.id then applyPatch now ui t
            else u)) := by
  refine ⟨?_, ?_, ?_⟩
  · intro ci hv
    simp [createTodoRPC, hv]
  · intro ui hv
    simp [updateTodoRPC, hv]
  · intro ui
    cases hcase : (s.todos.filter (fun u => u.id == ui.id)).head? with
    | none =>
      left
      unfold updateTodoSpec
      rw [hcase]
    | some t0 =>
      right
      have hmemf : t0 ∈ s.todos.filter (fun u => u.id == ui.id) := by
        obtain ⟨ys, hys⟩ := List.head?_eq_some_iff.mp hcase
        rw [hys]
        exact List.mem_cons_self _ _
      rw [List.mem_filter] at hmemf
      refine ⟨t0, hmemf.1, by simpa using hmemf.2, ?_, ?_⟩
      · unfold updateTodoSpec
        rw [hcase]
      · unfold updateTodoSpec
        rw [hcase]

/-- C9 witness: the create leg of the no-mutation theorem evaluated at the
empty title on the sample store. -/
theorem rejected_request_no_mutation_witness :
    (createTodoRPC 7 { title := "", description := Field3.absent }
      sampleState).2 = sampleState :=
  (rejected_request_no_mutation 7 sampleState).1
    { title := "", description := Field3.absent } (by decide)
